import Mathlib

/-!
Verification of the `cargo-l1x` build pipeline (shallow embedding).

File contents are modelled as `List Char` (the repository only manipulates
UTF-8 text made of ASCII characters).  Rust's `str::replace`, which rewrites
all non-overlapping occurrences of a pattern left to right, is modelled by
`replaceAll` below.  The filesystem is modelled as a partial map from path
strings to file contents, external subprocesses (cargo, llc, llvm-strip) as
abstract result-valued parameters, and the environment probed by the Tool
Locator as an explicit structure.
-/

namespace CargoL1x

/-- Rust `str::replace` on character lists: scan left to right; whenever the
pattern `p0 :: ps` is a prefix of the remaining input, emit the replacement
`r` and skip the matched characters, otherwise keep one character and
continue.  The pattern is taken non-empty (head `p0`, tail `ps`), matching
every call site in the repository. -/
def replaceAll (p0 : Char) (ps : List Char) (r : List Char) : List Char → List Char
  | [] => []
  | c :: cs =>
    if (p0 :: ps).isPrefixOf (c :: cs) then r ++ replaceAll p0 ps r (cs.drop ps.length)
    else c :: replaceAll p0 ps r cs
termination_by s => s.length
decreasing_by
  · simp only [List.length_cons, List.length_drop]
    omega
  · simp only [List.length_cons]
    omega

/-- Rust `str::replace` with a `String` pattern: dispatch on the pattern's
characters (the repository never calls `replace` with an empty pattern; for
completeness an empty pattern leaves the string unchanged). -/
def replaceStr (p r s : List Char) : List Char :=
  match p with
  | [] => s
  | p0 :: ps => replaceAll p0 ps r s

/-- `OBJECT_FILE_VERSION` constant from `build.rs`. -/
def OBJECT_FILE_VERSION : Int := 1

/-- `EXPECTED_RUNTIME_VERSION` constant from `build.rs`. -/
def EXPECTED_RUNTIME_VERSION : Int := 3

/-- First line written by `add_version_info` (the `writeln!` format string
with `OBJECT_FILE_VERSION` substituted). -/
def versionLine1 : List Char :=
  ("@_OBJECT_VERSION = global i64 " ++ toString OBJECT_FILE_VERSION ++
    ", section \"_version\", align 1").data

/-- Second line written by `add_version_info` (the `writeln!` format string
with `EXPECTED_RUNTIME_VERSION` substituted). -/
def versionLine2 : List Char :=
  ("@_EXPECTED_RUNTIME_VERSION = global i64 " ++ toString EXPECTED_RUNTIME_VERSION ++
    ", section \"_version\", align 1").data

/-- `add_version_info` from `build.rs`: the file is opened in append mode and
two lines are written with `writeln!` (each followed by a newline), so the new
content is the old content with the two lines appended in order. -/
def add_version_info (content : List Char) : List Char :=
  (content ++ (versionLine1 ++ ['\n'])) ++ (versionLine2 ++ ['\n'])

/-- First malformed pattern rewritten by `fix_version_file`. -/
def memPat : List Char := ("section \",_memory\"").data

/-- Replacement for `memPat`. -/
def memRep : List Char := ("section \"_memory\"").data

/-- Second malformed pattern rewritten by `fix_version_file`. -/
def initMemPat : List Char := ("section \",_init_memory\"").data

/-- Replacement for `initMemPat`. -/
def initMemRep : List Char := ("section \"_init_memory\"").data

/-- `fix_version_file` from `build.rs` (the pure content transformation): the
file content goes through the two exact-string replacements in order and is
written back. -/
def fix_version_file (content : List Char) : List Char :=
  replaceStr initMemPat initMemRep (replaceStr memPat memRep content)

/-- The variants of `BuildError` from `build.rs`. -/
inductive BuildErr where
  | TargetDirError
  | CargoBuildError
  | WasmBuildError
  | LlBuildError
  | IoError
  | LlcRunError
  | ObjectBuildError
  | LlvmStripRunError
  | LlvmStripError
deriving DecidableEq, Repr

/-- The environment probed by the Tool Locator (`get_llc_command` and
`which`): the `LLVM_BIN_PATH` variable, a `Path::exists` predicate, the
`PATH` directories with an `is_executable` predicate and an
`is_absolute` predicate backing `which`, and the standard output of
`llc --version` (`none` models `Command::output()` returning `Err`). -/
structure SysEnv where
  llvm_bin_path : Option String
  path_exists : String → Bool
  is_absolute : String → Bool
  is_exec : String → Bool
  path_dirs : List String
  llc_version_stdout : Option String

/-- `which` from `which.rs`: first try the program as an absolute path
(`try_which_from_path`), then scan the `PATH` directories in order and return
the first joined candidate that is executable (`PathBuf::join` returns the
program itself when it is absolute). -/
def which (env : SysEnv) (program : String) : Option String :=
  if env.is_absolute program && env.is_exec program then some program
  else
    env.path_dirs.findSome? fun dir =>
      let candidate := if env.is_absolute program then program else dir ++ "/" ++ program
      if env.is_exec candidate then some candidate else none

/-- Rust `str::contains` with a string pattern, on the character lists: the
pattern occurs as a contiguous substring. -/
def contains_str (hay pat : String) : Bool := decide (pat.data <:+: hay.data)

/-- The version test applied to the output of `llc --version` in
`get_llc_command`. -/
def supported_llc_version (version_str : String) : Bool :=
  contains_str version_str "version 17." || contains_str version_str "version 18." ||
    contains_str version_str "version 19."

/-- `get_llc_command` from `build.rs`: try `<LLVM_BIN_PATH>/llc` when the
variable is set and the path exists; otherwise try `llc-17`, `llc-18`,
`llc-19` via `which` in that order; otherwise, when bare `llc` is on the
search path, run `llc --version` and accept only a supported major version;
every remaining case is an `LlcRunError`. -/
def get_llc_command (env : SysEnv) : Except BuildErr String :=
  let fallback : Except BuildErr String :=
    if (which env "llc-17").isSome then Except.ok "llc-17"
    else if (which env "llc-18").isSome then Except.ok "llc-18"
    else if (which env "llc-19").isSome then Except.ok "llc-19"
    else if (which env "llc").isSome then
      match env.llc_version_stdout with
      | some version_str =>
        if supported_llc_version version_str then Except.ok "llc"
        else Except.error BuildErr.LlcRunError
      | none => Except.error BuildErr.LlcRunError
    else Except.error BuildErr.LlcRunError
  match env.llvm_bin_path with
  | some path_str =>
    let path := path_str ++ "/llc"
    if env.path_exists path then Except.ok path else fallback
  | none => fallback

/-- The `LLVM_BIN_PATH` override of `get_llc_command` does not fire: either
the variable is unset or the joined `llc` path does not exist. -/
def override_miss (env : SysEnv) : Prop :=
  ∀ p, env.llvm_bin_path = some p → env.path_exists (p ++ "/llc") = false

/-- One `CompilerArtifact` message parsed from the upstream cargo JSON
output in `build`: the first filename and whether its extension is `wasm`. -/
structure Artifact where
  filename : String
  is_wasm : Bool
deriving DecidableEq, Repr

/-- The per-module loop of `build` (`build.rs` lines 88–117): for every
artifact line whose file has the `wasm` extension, run the per-module stage
(`translate_module_to_file_by_path` followed by `build_ebpf`, abstracted as
`step`); the `?` operator propagates the first failure out of the loop.
Returns the modules for which the completion message was printed, and the
propagated error if any. -/
def process_artifacts (step : String → Except BuildErr Unit) :
    List Artifact → List String × Option BuildErr
  | [] => ([], none)
  | a :: rest =>
    if a.is_wasm then
      match step a.filename with
      | Except.error e => ([], some e)
      | Except.ok _ =>
        let out := process_artifacts step rest
        (a.filename :: out.1, out.2)
    else process_artifacts step rest

/-- Per-module stage that fails on the first module and succeeds on any
other; used to exhibit the early exit of the per-module loop. -/
def c4_step : String → Except BuildErr Unit :=
  fun s => if s = "a.wasm" then Except.error BuildErr.LlBuildError else Except.ok ()

/-- The variants of `CreateError` from `create.rs`. -/
inductive CreateErr where
  | IoError
  | UnknownTemplate (s : String)
  | ConnectionError
  | ZipError
  | DirectoryAlreadyExists (s : String)
deriving DecidableEq, Repr

/-- The `Template` enum from `create.rs`. -/
inductive Template where
  | LocalDefault
  | Default
  | Ft
  | Nft
deriving DecidableEq, Repr

/-- `Template::from_str` from `create.rs` (Rust `match` on the string). -/
def Template.from_str (s : String) : Except CreateErr Template :=
  if s = "local_default" then Except.ok Template.LocalDefault
  else if s = "default" then Except.ok Template.Default
  else if s = "ft" then Except.ok Template.Ft
  else if s = "nft" then Except.ok Template.Nft
  else Except.error (CreateErr.UnknownTemplate s)

/-- A filesystem mutation performed by `create`. -/
inductive FsOp where
  | mkdir (path : String)
  | write (path : String)
deriving DecidableEq, Repr

/-- `create` from `create.rs`, with its filesystem effects made explicit:
parse the template name, fail if the destination exists, then
`fs::create_dir_all(name)` (whose outcome is the abstract `mk_err`;
the attempted directory creation is recorded as an op), and finally the
template download and extraction, abstracted as `rest` (the ops it performs
and its error, if any). The returned pair is (filesystem mutations performed,
terminal error). -/
def create (ex : String → Bool) (mk_err : Option CreateErr)
    (rest : Template → List FsOp × Option CreateErr)
    (name from_template : String) : List FsOp × Option CreateErr :=
  match Template.from_str from_template with
  | Except.error e => ([], some e)
  | Except.ok template =>
    if ex name then ([], some (CreateErr.DirectoryAlreadyExists name))
    else
      match mk_err with
      | some e => ([FsOp.mkdir name], some e)
      | none =>
        let out := rest template
        (FsOp.mkdir name :: out.1, out.2)

/-- Point update of the modelled filesystem. -/
def fsWrite (fs : String → Option (List Char)) (p : String) (c : List Char) :
    String → Option (List Char) :=
  fun q => if q = p then some c else fs q

/-- `add_version_info` as a filesystem step: open the file (failure when it
does not exist) and append the two version lines. -/
def add_version_info_fs (fs : String → Option (List Char)) (p : String) :
    (String → Option (List Char)) × Option BuildErr :=
  match fs p with
  | none => (fs, some BuildErr.IoError)
  | some c => (fsWrite fs p (add_version_info c), none)

/-- `fix_version_file` as a filesystem step: read the file, apply the two
replacements, truncate and write back. -/
def fix_version_file_fs (fs : String → Option (List Char)) (p : String) :
    (String → Option (List Char)) × Option BuildErr :=
  match fs p with
  | none => (fs, some BuildErr.IoError)
  | some c => (fsWrite fs p (fix_version_file c), none)

/-- `compile_to_object` as a filesystem step: the resolved llc is run on the
input file and writes the output file; the external compiler is abstracted as
`llc`, a function from the input text to the produced object bytes or a
failure. -/
def compile_to_object_fs (llc : List Char → Except BuildErr (List Char))
    (fs : String → Option (List Char)) (input output : String) :
    (String → Option (List Char)) × Option BuildErr :=
  match fs input with
  | none => (fs, some BuildErr.ObjectBuildError)
  | some c =>
    match llc c with
    | Except.error e => (fs, some e)
    | Except.ok obj => (fsWrite fs output obj, none)

/-- `strip_object_file` as a filesystem step: the resolved llvm-strip
rewrites the object file in place; the external tool is abstracted as
`strip`. -/
def strip_object_file_fs (strip : List Char → Except BuildErr (List Char))
    (fs : String → Option (List Char)) (p : String) :
    (String → Option (List Char)) × Option BuildErr :=
  match fs p with
  | none => (fs, some BuildErr.LlvmStripError)
  | some c =>
    match strip c with
    | Except.error e => (fs, some e)
    | Except.ok c2 => (fsWrite fs p c2, none)

/-- The five pipeline stages of `build_ebpf`, in invocation order. -/
inductive Stage where
  | copy
  | version
  | fix
  | compile
  | strip
deriving DecidableEq, Repr

/-- Result of `build_ebpf`: the filesystem after the run, the stages that
were invoked (in order), and the propagated error if any. -/
structure EbpfResult where
  fs : String → Option (List Char)
  stages : List Stage
  err : Option BuildErr

/-- `build_ebpf` from `build.rs`.  The input path is `stem ++ ".ll"`;
`Path::with_extension "versioned.ll"` and `Path::with_extension "o"`
replace the `.ll` suffix, giving `stem ++ ".versioned.ll"` and
`stem ++ ".o"`.  The raw file is copied to the versioned file, the version
record is appended to the versioned file, the versioned file is patched,
compiled to the target object, and the object is stripped unless `no_strip`
is set; each stage's failure aborts the rest (`?`). -/
def build_ebpf (llc strip : List Char → Except BuildErr (List Char))
    (fs : String → Option (List Char)) (stem : String) (no_strip : Bool) : EbpfResult :=
  let source_file := stem ++ ".ll"
  let versioned_file := stem ++ ".versioned.ll"
  let target_file := stem ++ ".o"
  match fs source_file with
  | none => { fs := fs, stages := [Stage.copy], err := some BuildErr.IoError }
  | some raw =>
    let fs1 := fsWrite fs versioned_file raw
    match add_version_info_fs fs1 versioned_file with
    | (fs2, some e) => { fs := fs2, stages := [Stage.copy, Stage.version], err := some e }
    | (fs2, none) =>
      match fix_version_file_fs fs2 versioned_file with
      | (fs3, some e) =>
        { fs := fs3, stages := [Stage.copy, Stage.version, Stage.fix], err := some e }
      | (fs3, none) =>
        match compile_to_object_fs llc fs3 versioned_file target_file with
        | (fs4, some e) =>
          { fs := fs4, stages := [Stage.copy, Stage.version, Stage.fix, Stage.compile],
            err := some e }
        | (fs4, none) =>
          if no_strip then
            { fs := fs4, stages := [Stage.copy, Stage.version, Stage.fix, Stage.compile],
              err := none }
          else
            match strip_object_file_fs strip fs4 target_file with
            | (fs5, se) =>
              { fs := fs5,
                stages := [Stage.copy, Stage.version, Stage.fix, Stage.compile, Stage.strip],
                err := se }

/-- Whether `build` detects the `--no-strip` flag in its arguments. -/
def no_strip_flag (args : List String) : Bool := args.contains "--no-strip"

/-- The argument list `build` forwards to cargo: when `--no-strip` is
present it is filtered out, otherwise the list is unchanged. -/
def forwarded_args (args : List String) : List String :=
  if no_strip_flag args then args.filter (fun x => !(x == "--no-strip")) else args

/-- Whether `build` sets `RUSTFLAGS="-C link-arg=-s"` on the cargo command
(it does exactly when `--no-strip` is absent). -/
def rustflags_set (args : List String) : Bool := !no_strip_flag args

/-- The argument vector of the first cargo invocation made by `build`:
`build --target wasm32-unknown-unknown`, the forwarded caller arguments, and
`--release` appended unless the forwarded arguments already contain it. -/
def cargo_invocation (args : List String) : List String :=
  let args2 := forwarded_args args
  ["build", "--target", "wasm32-unknown-unknown"] ++ args2 ++
    (if args2.contains "--release" then [] else ["--release"])

/-- The argument vector of the second cargo invocation made by `build` (the
same command object with `--message-format json` appended). -/
def cargo_invocation_json (args : List String) : List String :=
  cargo_invocation args ++ ["--message-format", "json"]

/-- Rust `str::starts_with` with a string pattern, on the character lists. -/
def starts_with (s pre : String) : Bool := pre.data.isPrefixOf s.data

/-- Inner loop of `check_args_not_contains` (`main.rs`): the first excluded
name that `arg` starts with, if any. -/
def check_arg_against (arg : String) : List String → Option String
  | [] => none
  | e :: es => if starts_with arg e then some e else check_arg_against arg es

/-- `check_args_not_contains` from `main.rs`: scan the arguments in order;
the first argument starting with an excluded name produces the error. -/
def check_args_not_contains : List String → List String → Except String Unit
  | [], _ => Except.ok ()
  | arg :: rest, exclude =>
    match check_arg_against arg exclude with
    | some e => Except.error ("This argument cannot be changed: " ++ e)
    | none => check_args_not_contains rest exclude

/-- The exclusion list passed to `check_args_not_contains` by the `build`
command in `main.rs`. -/
def forbidden_args : List String :=
  ["--target", "--message-format", "--version", "--manifest-path", "--profile"]

/-- One entry of the template zip archive, for `Template::unzip`: its
(mangled) path as components, whether it is a directory, and its content.
Path sanitization of `ZipFile::mangled_name` is abstracted: the stored
components stand for the sanitized relative path, used both for the
destination (`mangled_name`) and the recorded top-level name (`file.name`,
which denotes the same relative path). -/
structure ZEntry where
  components : List String
  is_dir : Bool
  content : List Char
deriving DecidableEq, Repr

/-- The `strip_prefix` step of `Template::unzip`: once a top-level directory
name is recorded, it is stripped from an entry path when it is a prefix of
it, otherwise the path is kept. -/
def stripTop (top : Option (List String)) (comps : List String) : List String :=
  match top with
  | some t => if t.isPrefixOf comps then comps.drop t.length else comps
  | none => comps

/-- The `Cargo.toml.template` renaming step of `Template::unzip`
(`Path::with_file_name` replaces the final component). -/
def renameTemplate (path : List String) : List String :=
  if path.getLast? = some "Cargo.toml.template" then path.dropLast ++ ["Cargo.toml"]
  else path

/-- Effects of `Template::unzip`: the directories explicitly created with
`create_dir_all` for directory entries, and the files written (destination
path and content).  Implicit creation of missing parent directories before a
file write is not tracked. -/
structure UnzipOut where
  dirs : List (List String)
  files : List (List String × List Char)
deriving DecidableEq, Repr

/-- The loop of `Template::unzip` (`create.rs` lines 78–127), processing the
archive entries in order while threading the recorded top-level directory
name: the first directory entry is recorded and skipped, later entries have
the recorded name stripped off their path, directory entries are created,
and file entries are written after the `Cargo.toml.template` renaming. -/
def unzipAux (dest : List String) : Option (List String) → List ZEntry → UnzipOut
  | _, [] => { dirs := [], files := [] }
  | top, e :: rest =>
    let file_path := stripTop top e.components
    let path := dest ++ file_path
    if e.is_dir then
      match top with
      | none => unzipAux dest (some e.components) rest
      | some t =>
        let out := unzipAux dest (some t) rest
        { dirs := path :: out.dirs, files := out.files }
    else
      let out := unzipAux dest top rest
      { dirs := out.dirs, files := (renameTemplate path, e.content) :: out.files }

/-! ## Properties of `replaceAll` (Platform Compatibility Patcher) -/

theorem replaceAll_nil (p0 : Char) (ps r : List Char) : replaceAll p0 ps r [] = [] := by
  rw [replaceAll]

theorem replaceAll_cons_pos (p0 : Char) (ps r cs : List Char) (c : Char)
    (h : (p0 :: ps) <+: (c :: cs)) :
    replaceAll p0 ps r (c :: cs) = r ++ replaceAll p0 ps r (cs.drop ps.length) := by
  rw [replaceAll]
  simp [h]

theorem replaceAll_cons_neg (p0 : Char) (ps r cs : List Char) (c : Char)
    (h : ¬ ((p0 :: ps) <+: (c :: cs))) :
    replaceAll p0 ps r (c :: cs) = c :: replaceAll p0 ps r cs := by
  rw [replaceAll]
  simp [h]

theorem prefix_take_of_prefix_append (p r x : List Char) (h : p <+: r ++ x) :
    p.take r.length <+: r := by
  obtain ⟨t, ht⟩ := h
  have hr : (r ++ x).take r.length = r := List.take_left r x
  rw [← ht, List.take_append_eq_append_take] at hr
  exact ⟨_, hr⟩

theorem prefix_reflect (q0 d : Char) (qs rs : List Char) :
    ∀ s x : List Char, d ∉ x →
      x <+: replaceAll q0 qs (d :: rs) s → x <+: s := by
  intro s
  induction s with
  | nil =>
    intro x hx h
    rw [replaceAll_nil] at h
    exact h
  | cons c cs ih =>
    intro x hx h
    by_cases hp : (q0 :: qs) <+: (c :: cs)
    · rw [replaceAll_cons_pos _ _ _ _ _ hp] at h
      cases x with
      | nil => exact List.nil_prefix
      | cons x0 xs =>
        rw [List.cons_append, List.cons_prefix_cons] at h
        exact absurd (by rw [h.1]; exact List.mem_cons_self _ _) hx
    · rw [replaceAll_cons_neg _ _ _ _ _ hp] at h
      cases x with
      | nil => exact List.nil_prefix
      | cons x0 xs =>
        rw [List.cons_prefix_cons] at h
        have hxs : d ∉ xs := fun hm => hx (List.mem_cons_of_mem _ hm)
        rw [List.cons_prefix_cons]
        exact ⟨h.1, ih xs hxs h.2⟩

theorem replaceAll_self_no_occ (p0 : Char) (ps rs : List Char)
    (hps : p0 ∉ ps) (hrs : p0 ∉ rs)
    (htake : ¬ ((p0 :: ps).take (p0 :: rs).length <+: (p0 :: rs))) :
    ∀ (n : Nat) (s : List Char), s.length ≤ n →
      ¬ ((p0 :: ps) <:+: replaceAll p0 ps (p0 :: rs) s) := by
  intro n
  induction n with
  | zero =>
    intro s hs
    have hnil : s = [] := List.eq_nil_of_length_eq_zero (Nat.le_zero.mp hs)
    subst hnil
    rw [replaceAll_nil]
    simp [List.infix_nil]
  | succ n ih =>
    intro s hs hocc
    cases s with
    | nil =>
      rw [replaceAll_nil] at hocc
      simp [List.infix_nil] at hocc
    | cons c cs =>
      have hcs : cs.length ≤ n := by simpa using hs
      have hdrop : (cs.drop ps.length).length ≤ n := by
        rw [List.length_drop]; omega
      by_cases hp : (p0 :: ps) <+: (c :: cs)
      · rw [replaceAll_cons_pos _ _ _ _ _ hp] at hocc
        obtain ⟨a, b, hab⟩ := hocc
        rw [List.append_assoc] at hab
        rcases List.append_eq_append_iff.mp hab with ⟨a2, h1, h2⟩ | ⟨c2, h1, h2⟩
        · cases a2 with
          | nil =>
            rw [List.nil_append] at h2
            exact ih _ hdrop ⟨[], b, by simp [h2]⟩
          | cons d a3 =>
            have hd : p0 = d := by
              simp only [List.cons_append] at h2
              injection h2 with hh _
            cases a with
            | nil =>
              rw [List.nil_append] at hab
              exact htake (prefix_take_of_prefix_append _ _ _ ⟨b, hab⟩)
            | cons a0 a4 =>
              rw [List.cons_append] at h1
              injection h1 with h1a h1b
              exact absurd (by
                rw [h1b, ← hd]
                exact List.mem_append_right _ (List.mem_cons_self _ _)) hrs
        · exact ih _ hdrop ⟨c2, b, by rw [h2, List.append_assoc]⟩
      · rw [replaceAll_cons_neg _ _ _ _ _ hp] at hocc
        obtain ⟨a, b, hab⟩ := hocc
        cases a with
        | nil =>
          rw [List.nil_append, List.cons_append] at hab
          injection hab with hh ht
          have hpre : ps <+: replaceAll p0 ps (p0 :: rs) cs := ⟨b, ht⟩
          have hres := prefix_reflect p0 p0 ps rs cs ps hps hpre
          apply hp
          rw [List.cons_prefix_cons]
          exact ⟨hh, hres⟩
        | cons a0 a4 =>
          simp only [List.cons_append] at hab
          injection hab with hh ht
          exact ih cs hcs ⟨a4, b, ht⟩

theorem replaceAll_occ_reflect (q0 p0 : Char) (qs ps rqs : List Char)
    (hps : p0 ∉ ps) (hrqs : p0 ∉ rqs)
    (htake : ¬ ((p0 :: ps).take (p0 :: rqs).length <+: (p0 :: rqs))) :
    ∀ (n : Nat) (s : List Char), s.length ≤ n →
      (p0 :: ps) <:+: replaceAll q0 qs (p0 :: rqs) s → (p0 :: ps) <:+: s := by
  intro n
  induction n with
  | zero =>
    intro s hs hocc
    have hnil : s = [] := List.eq_nil_of_length_eq_zero (Nat.le_zero.mp hs)
    subst hnil
    rw [replaceAll_nil] at hocc
    exact hocc
  | succ n ih =>
    intro s hs hocc
    cases s with
    | nil =>
      rw [replaceAll_nil] at hocc
      exact hocc
    | cons c cs =>
      have hcs : cs.length ≤ n := by simpa using hs
      have hdrop : (cs.drop qs.length).length ≤ n := by
        rw [List.length_drop]; omega
      by_cases hq : (q0 :: qs) <+: (c :: cs)
      · rw [replaceAll_cons_pos _ _ _ _ _ hq] at hocc
        have hsuf : (cs.drop qs.length) <:+ (c :: cs) :=
          (List.drop_suffix _ _).trans (List.suffix_cons _ _)
        obtain ⟨a, b, hab⟩ := hocc
        rw [List.append_assoc] at hab
        rcases List.append_eq_append_iff.mp hab with ⟨a2, h1, h2⟩ | ⟨c2, h1, h2⟩
        · cases a2 with
          | nil =>
            rw [List.nil_append] at h2
            exact (ih _ hdrop ⟨[], b, by simp [h2]⟩).trans hsuf.isInfix
          | cons d a3 =>
            have hd : p0 = d := by
              simp only [List.cons_append] at h2
              injection h2 with hh _
            cases a with
            | nil =>
              rw [List.nil_append] at hab
              exact absurd (prefix_take_of_prefix_append _ _ _ ⟨b, hab⟩) htake
            | cons a0 a4 =>
              rw [List.cons_append] at h1
              injection h1 with h1a h1b
              exact absurd (by
                rw [h1b, ← hd]
                exact List.mem_append_right _ (List.mem_cons_self _ _)) hrqs
        · exact (ih _ hdrop ⟨c2, b, by rw [h2, List.append_assoc]⟩).trans hsuf.isInfix
      · rw [replaceAll_cons_neg _ _ _ _ _ hq] at hocc
        obtain ⟨a, b, hab⟩ := hocc
        cases a with
        | nil =>
          rw [List.nil_append, List.cons_append] at hab
          injection hab with hh ht
          have hpre : ps <+: replaceAll q0 qs (p0 :: rqs) cs := ⟨b, ht⟩
          have hres := prefix_reflect q0 p0 qs rqs cs ps hps hpre
          have hfin : (p0 :: ps) <+: (c :: cs) := by
            rw [List.cons_prefix_cons]
            exact ⟨hh, hres⟩
          exact hfin.isInfix
        | cons a0 a4 =>
          simp only [List.cons_append] at hab
          injection hab with hh ht
          exact (ih cs hcs ⟨a4, b, ht⟩).trans (List.suffix_cons c cs).isInfix

theorem replaceAll_id_of_no_occ (p0 : Char) (ps r : List Char) :
    ∀ s : List Char, ¬ ((p0 :: ps) <:+: s) → replaceAll p0 ps r s = s := by
  intro s
  induction s with
  | nil =>
    intro _
    rw [replaceAll_nil]
  | cons c cs ih =>
    intro h
    have hp : ¬ ((p0 :: ps) <+: (c :: cs)) := fun hpre => h hpre.isInfix
    rw [replaceAll_cons_neg _ _ _ _ _ hp]
    have hcs : ¬ ((p0 :: ps) <:+: cs) := fun hocc =>
      h (hocc.trans (List.suffix_cons c cs).isInfix)
    rw [ih hcs]

theorem memPat_cons : memPat = 's' :: ("ection \",_memory\"").data := rfl

theorem memRep_cons : memRep = 's' :: ("ection \"_memory\"").data := rfl

theorem initMemPat_cons : initMemPat = 's' :: ("ection \",_init_memory\"").data := rfl

theorem initMemRep_cons : initMemRep = 's' :: ("ection \"_init_memory\"").data := rfl

theorem replaceStr_id_of_no_occ (p0 : Char) (ps r s : List Char)
    (h : ¬ ((p0 :: ps) <:+: s)) : replaceStr (p0 :: ps) r s = s :=
  replaceAll_id_of_no_occ p0 ps r s h

theorem no_memPat_occ (t : List Char) : ¬ (memPat <:+: replaceStr memPat memRep t) := by
  rw [memPat_cons, memRep_cons]
  exact replaceAll_self_no_occ 's' _ _ (by decide) (by decide) (by decide) t.length t le_rfl

theorem no_initMemPat_occ (t : List Char) :
    ¬ (initMemPat <:+: replaceStr initMemPat initMemRep t) := by
  rw [initMemPat_cons, initMemRep_cons]
  exact replaceAll_self_no_occ 's' _ _ (by decide) (by decide) (by decide) t.length t le_rfl

theorem memPat_occ_reflect (t : List Char)
    (h : memPat <:+: replaceStr initMemPat initMemRep t) : memPat <:+: t := by
  rw [memPat_cons] at h ⊢
  rw [initMemPat_cons, initMemRep_cons] at h
  exact replaceAll_occ_reflect 's' 's' _ _ _ (by decide) (by decide) (by decide)
    t.length t le_rfl h

theorem fix_version_file_no_occ (s : List Char) :
    ¬ (memPat <:+: fix_version_file s) ∧ ¬ (initMemPat <:+: fix_version_file s) := by
  constructor
  · intro h
    exact no_memPat_occ s (memPat_occ_reflect _ h)
  · exact no_initMemPat_occ _

/-! ## Claim theorems C1 and C2 -/

/-- C1: `add_version_info` leaves the original content in place as an
unchanged byte prefix and appends exactly the two version declaration lines
(`@_OBJECT_VERSION = global i64 1, section "_version", align 1` then
`@_EXPECTED_RUNTIME_VERSION = global i64 3, section "_version", align 1`,
each newline-terminated) and nothing else. -/
theorem add_version_info_appends_version_record (content : List Char) :
    add_version_info content =
      content ++
        ("@_OBJECT_VERSION = global i64 1, section \"_version\", align 1\n@_EXPECTED_RUNTIME_VERSION = global i64 3, section \"_version\", align 1\n").data
    ∧ content <+: add_version_info content := by
  have hblock : (versionLine1 ++ ['\n']) ++ (versionLine2 ++ ['\n']) =
      ("@_OBJECT_VERSION = global i64 1, section \"_version\", align 1\n@_EXPECTED_RUNTIME_VERSION = global i64 3, section \"_version\", align 1\n").data := by
    decide
  constructor
  · rw [add_version_info, List.append_assoc, hblock]
  · rw [add_version_info, List.append_assoc]
    exact List.prefix_append _ _

/-- C2: the Platform Compatibility Patcher's substitution is idempotent: for
every content `s`, applying the two exact-string replacements of
`fix_version_file` twice yields the same string as applying them once. -/
theorem fix_version_file_idempotent (s : List Char) :
    fix_version_file (fix_version_file s) = fix_version_file s := by
  obtain ⟨h1, h2⟩ := fix_version_file_no_occ s
  have e1 : replaceStr memPat memRep (fix_version_file s) = fix_version_file s := by
    rw [memPat_cons]
    exact replaceStr_id_of_no_occ _ _ _ _ (by rw [← memPat_cons]; exact h1)
  have e2 : replaceStr initMemPat initMemRep (fix_version_file s) = fix_version_file s := by
    rw [initMemPat_cons]
    exact replaceStr_id_of_no_occ _ _ _ _ (by rw [← initMemPat_cons]; exact h2)
  show replaceStr initMemPat initMemRep (replaceStr memPat memRep (fix_version_file s)) =
    fix_version_file s
  rw [e1, e2]

/-! ## Claim theorem C3 (Tool Locator) -/

/-- C3: `get_llc_command` resolves in a fixed order with short-circuit on
first success: the `LLVM_BIN_PATH` override when the joined `llc` path
exists; otherwise the first of `llc-17`, `llc-18`, `llc-19` found by `which`;
otherwise bare `llc`, accepted only when the reported version output contains
a supported version string — a mismatch or unreadable output yields
`LlcRunError` rather than a silent fallback, and so does finding no candidate
at all. -/
theorem get_llc_command_resolution (env : SysEnv) :
    (∀ p, env.llvm_bin_path = some p → env.path_exists (p ++ "/llc") = true →
      get_llc_command env = Except.ok (p ++ "/llc"))
  ∧ (override_miss env → (which env "llc-17").isSome = true →
      get_llc_command env = Except.ok "llc-17")
  ∧ (override_miss env → which env "llc-17" = none → (which env "llc-18").isSome = true →
      get_llc_command env = Except.ok "llc-18")
  ∧ (override_miss env → which env "llc-17" = none → which env "llc-18" = none →
      (which env "llc-19").isSome = true → get_llc_command env = Except.ok "llc-19")
  ∧ (∀ out, override_miss env → which env "llc-17" = none → which env "llc-18" = none →
      which env "llc-19" = none → (which env "llc").isSome = true →
      env.llc_version_stdout = some out →
      get_llc_command env =
        (if supported_llc_version out then Except.ok "llc"
         else Except.error BuildErr.LlcRunError))
  ∧ (override_miss env → which env "llc-17" = none → which env "llc-18" = none →
      which env "llc-19" = none → (which env "llc").isSome = true →
      env.llc_version_stdout = none →
      get_llc_command env = Except.error BuildErr.LlcRunError)
  ∧ (override_miss env → which env "llc-17" = none → which env "llc-18" = none →
      which env "llc-19" = none → which env "llc" = none →
      get_llc_command env = Except.error BuildErr.LlcRunError) := by
  refine ⟨?_, ?_, ?_, ?_, ?_, ?_, ?_⟩
  · intro p hp hex
    simp [get_llc_command, hp, hex]
  · intro hmiss h17
    cases hbin : env.llvm_bin_path with
    | none => simp [get_llc_command, hbin, h17]
    | some p => simp [get_llc_command, hbin, hmiss p hbin, h17]
  · intro hmiss h17 h18
    cases hbin : env.llvm_bin_path with
    | none => simp [get_llc_command, hbin, h17, h18]
    | some p => simp [get_llc_command, hbin, hmiss p hbin, h17, h18]
  · intro hmiss h17 h18 h19
    cases hbin : env.llvm_bin_path with
    | none => simp [get_llc_command, hbin, h17, h18, h19]
    | some p => simp [get_llc_command, hbin, hmiss p hbin, h17, h18, h19]
  · intro out hmiss h17 h18 h19 hllc hstd
    cases hbin : env.llvm_bin_path with
    | none => simp [get_llc_command, hbin, h17, h18, h19, hllc, hstd]
    | some p => simp [get_llc_command, hbin, hmiss p hbin, h17, h18, h19, hllc, hstd]
  · intro hmiss h17 h18 h19 hllc hstd
    cases hbin : env.llvm_bin_path with
    | none => simp [get_llc_command, hbin, h17, h18, h19, hllc, hstd]
    | some p => simp [get_llc_command, hbin, hmiss p hbin, h17, h18, h19, hllc, hstd]
  · intro hmiss h17 h18 h19 hllc
    cases hbin : env.llvm_bin_path with
    | none => simp [get_llc_command, hbin, h17, h18, h19, hllc]
    | some p => simp [get_llc_command, hbin, hmiss p hbin, h17, h18, h19, hllc]

/-- Concrete environment for the Tool Locator: no override, only a bare
`llc` on the search path, reporting an unsupported version. -/
def c3_env : SysEnv where
  llvm_bin_path := none
  path_exists := fun _ => false
  is_absolute := fun _ => false
  is_exec := fun s => s == "/usr/bin/llc"
  path_dirs := ["/usr/bin"]
  llc_version_stdout := some "LLVM version 16.0.0"

/-- Witness for C3: in `c3_env` the bare `llc` is found but reports version
16, so resolution fails with `LlcRunError` instead of silently using it. -/
theorem get_llc_command_resolution_witness :
    get_llc_command c3_env = Except.error BuildErr.LlcRunError := by
  have h := (get_llc_command_resolution c3_env).2.2.2.2.1 "LLVM version 16.0.0"
    (fun p hp => by simp [c3_env] at hp) (by decide) (by decide) (by decide)
    (by decide) (by decide)
  have hv : supported_llc_version "LLVM version 16.0.0" = false := by decide
  rw [h, hv]
  simp

/-! ## Claim theorem C4 (per-module loop) -/

/-- C4 (counterexample): the per-module loop does not continue after a
failing module.  With two wasm artifacts where only the first module's stage
fails, the loop result is the first module's error with no module processed:
`b.wasm` is not processed even though its stage succeeds, refuting
continue-and-collect-all-errors behavior. -/
theorem build_loop_continue_counterexample :
    c4_step "b.wasm" = Except.ok ()
    ∧ process_artifacts c4_step
        [{ filename := "a.wasm", is_wasm := true }, { filename := "b.wasm", is_wasm := true }] =
        ([], some BuildErr.LlBuildError)
    ∧ "b.wasm" ∉ (process_artifacts c4_step
        [{ filename := "a.wasm", is_wasm := true },
          { filename := "b.wasm", is_wasm := true }]).1 :=
  ⟨rfl, by decide, by decide⟩

/-- C4 (amended): the per-module loop exits early on the first failing wasm
module: the `?` operator propagates that module's error immediately and none
of the remaining artifacts is processed. -/
theorem build_loop_halts_on_first_failure (step : String → Except BuildErr Unit)
    (a : Artifact) (rest : List Artifact) (e : BuildErr)
    (hw : a.is_wasm = true) (hf : step a.filename = Except.error e) :
    process_artifacts step (a :: rest) = ([], some e) := by
  simp [process_artifacts, hw, hf]

/-- Witness for the amended C4 at a concrete two-artifact list. -/
theorem build_loop_halts_on_first_failure_witness :
    process_artifacts c4_step
      [{ filename := "a.wasm", is_wasm := true }, { filename := "b.wasm", is_wasm := true }] =
      ([], some BuildErr.LlBuildError) :=
  build_loop_halts_on_first_failure c4_step { filename := "a.wasm", is_wasm := true } _ _
    rfl rfl

/-! ## Claim theorem C5 (create preconditions) -/

/-- C5: `create` fails without mutating the filesystem when its preconditions
are violated: an unknown template name yields `UnknownTemplate` with no
filesystem operation; a known template with an existing destination yields
`DirectoryAlreadyExists` with no filesystem operation; and any filesystem
mutation implies both checks passed. -/
theorem create_precondition_checks (ex : String → Bool) (mk_err : Option CreateErr)
    (rest : Template → List FsOp × Option CreateErr) (name from_template : String) :
    (from_template ∉ ["local_default", "default", "ft", "nft"] →
      create ex mk_err rest name from_template =
        ([], some (CreateErr.UnknownTemplate from_template)))
  ∧ (from_template ∈ ["local_default", "default", "ft", "nft"] → ex name = true →
      create ex mk_err rest name from_template =
        ([], some (CreateErr.DirectoryAlreadyExists name)))
  ∧ ((create ex mk_err rest name from_template).1 ≠ [] →
      from_template ∈ ["local_default", "default", "ft", "nft"] ∧ ex name = false) := by
  refine ⟨?_, ?_, ?_⟩
  · intro h
    simp only [List.mem_cons, List.not_mem_nil, or_false, not_or] at h
    obtain ⟨h1, h2, h3, h4⟩ := h
    simp [create, Template.from_str, h1, h2, h3, h4]
  · intro hmem hex
    simp only [List.mem_cons, List.not_mem_nil, or_false] at hmem
    rcases hmem with rfl | rfl | rfl | rfl <;> simp [create, Template.from_str, hex]
  · intro hne
    cases hfs : Template.from_str from_template with
    | error e =>
      exact absurd (by simp [create, hfs]) hne
    | ok t =>
      cases hex : ex name with
      | true =>
        exact absurd (by simp [create, hfs, hex]) hne
      | false =>
        refine ⟨?_, rfl⟩
        by_contra hmem
        simp only [List.mem_cons, List.not_mem_nil, or_false, not_or] at hmem
        obtain ⟨h1, h2, h3, h4⟩ := hmem
        simp [Template.from_str, h1, h2, h3, h4] at hfs

/-- Witness for C5: scaffolding into an existing destination with a known
template fails with `DirectoryAlreadyExists` and performs no filesystem
operation. -/
theorem create_precondition_checks_witness :
    create (fun _ => true) none (fun _ => ([], none)) "proj" "ft" =
      ([], some (CreateErr.DirectoryAlreadyExists "proj")) :=
  (create_precondition_checks (fun _ => true) none (fun _ => ([], none)) "proj" "ft").2.1
    (by decide) rfl

/-! ## Frame lemmas for the `build_ebpf` stages -/

theorem append_ne_of_length_ne (s a b : String) (h : a.length ≠ b.length) :
    s ++ a ≠ s ++ b := by
  intro he
  apply h
  have hl := congrArg String.length he
  rw [String.length_append, String.length_append] at hl
  omega

theorem add_version_info_fs_frame (fs : String → Option (List Char)) (p q : String)
    (h : q ≠ p) : (add_version_info_fs fs p).1 q = fs q := by
  unfold add_version_info_fs
  cases fs p <;> simp [fsWrite, h]

theorem add_version_info_fs_at (fs : String → Option (List Char)) (p : String)
    (c : List Char) (h : fs p = some c) :
    add_version_info_fs fs p = (fsWrite fs p (add_version_info c), none) := by
  simp [add_version_info_fs, h]

theorem fix_version_file_fs_frame (fs : String → Option (List Char)) (p q : String)
    (h : q ≠ p) : (fix_version_file_fs fs p).1 q = fs q := by
  unfold fix_version_file_fs
  cases fs p <;> simp [fsWrite, h]

theorem fix_version_file_fs_at (fs : String → Option (List Char)) (p : String)
    (c : List Char) (h : fs p = some c) :
    fix_version_file_fs fs p = (fsWrite fs p (fix_version_file c), none) := by
  simp [fix_version_file_fs, h]

theorem compile_to_object_fs_frame (llc : List Char → Except BuildErr (List Char))
    (fs : String → Option (List Char)) (i o q : String) (h : q ≠ o) :
    (compile_to_object_fs llc fs i o).1 q = fs q := by
  unfold compile_to_object_fs
  cases fs i with
  | none => simp
  | some c => rcases hc : llc c with e | obj <;> simp [hc, fsWrite, h]

theorem strip_object_file_fs_frame (strip : List Char → Except BuildErr (List Char))
    (fs : String → Option (List Char)) (p q : String) (h : q ≠ p) :
    (strip_object_file_fs strip fs p).1 q = fs q := by
  unfold strip_object_file_fs
  cases fs p with
  | none => simp
  | some c => rcases hc : strip c with e | c2 <;> simp [hc, fsWrite, h]

theorem build_ebpf_fs_frame (llc strip : List Char → Except BuildErr (List Char))
    (fs : String → Option (List Char)) (stem : String) (ns : Bool) (q : String)
    (hq1 : q ≠ stem ++ ".versioned.ll") (hq2 : q ≠ stem ++ ".o") :
    (build_ebpf llc strip fs stem ns).fs q = fs q := by
  simp only [build_ebpf]
  cases hsrc : fs (stem ++ ".ll") with
  | none => rfl
  | some raw =>
    dsimp only
    rcases h2 : add_version_info_fs (fsWrite fs (stem ++ ".versioned.ll") raw)
        (stem ++ ".versioned.ll") with ⟨fs2, oe2⟩
    have hf2 : fs2 q = fs q := by
      have hx := add_version_info_fs_frame (fsWrite fs (stem ++ ".versioned.ll") raw)
        (stem ++ ".versioned.ll") q hq1
      rw [h2] at hx
      simpa [fsWrite, hq1] using hx
    cases oe2 with
    | some e => exact hf2
    | none =>
      dsimp only
      rcases h3 : fix_version_file_fs fs2 (stem ++ ".versioned.ll") with ⟨fs3, oe3⟩
      have hf3 : fs3 q = fs q := by
        have hx := fix_version_file_fs_frame fs2 (stem ++ ".versioned.ll") q hq1
        rw [h3] at hx
        exact hx.trans hf2
      cases oe3 with
      | some e => exact hf3
      | none =>
        dsimp only
        rcases h4 : compile_to_object_fs llc fs3 (stem ++ ".versioned.ll") (stem ++ ".o")
          with ⟨fs4, oe4⟩
        have hf4 : fs4 q = fs q := by
          have hx := compile_to_object_fs_frame llc fs3 (stem ++ ".versioned.ll")
            (stem ++ ".o") q hq2
          rw [h4] at hx
          exact hx.trans hf3
        cases oe4 with
        | some e => exact hf4
        | none =>
          cases ns with
          | true => exact hf4
          | false =>
            exact (strip_object_file_fs_frame strip fs4 (stem ++ ".o") q hq2).trans hf4

theorem build_ebpf_versioned_content (llc strip : List Char → Except BuildErr (List Char))
    (fs : String → Option (List Char)) (stem : String) (ns : Bool) (raw : List Char)
    (h : fs (stem ++ ".ll") = some raw) :
    (build_ebpf llc strip fs stem ns).fs (stem ++ ".versioned.ll") =
      some (fix_version_file (add_version_info raw)) := by
  have hvt : (stem ++ ".versioned.ll") ≠ (stem ++ ".o") :=
    append_ne_of_length_ne _ _ _ (by decide)
  simp only [build_ebpf]
  rw [h]
  dsimp only
  rw [add_version_info_fs_at _ _ raw (by simp [fsWrite])]
  dsimp only
  rw [fix_version_file_fs_at _ _ (add_version_info raw) (by simp [fsWrite])]
  dsimp only
  rcases h4 : compile_to_object_fs llc
      (fsWrite (fsWrite (fsWrite fs (stem ++ ".versioned.ll") raw) (stem ++ ".versioned.ll")
        (add_version_info raw)) (stem ++ ".versioned.ll")
        (fix_version_file (add_version_info raw)))
      (stem ++ ".versioned.ll") (stem ++ ".o") with ⟨fs4, oe4⟩
  have hf4 : fs4 (stem ++ ".versioned.ll") = some (fix_version_file (add_version_info raw)) := by
    have hx := compile_to_object_fs_frame llc
      (fsWrite (fsWrite (fsWrite fs (stem ++ ".versioned.ll") raw) (stem ++ ".versioned.ll")
        (add_version_info raw)) (stem ++ ".versioned.ll")
        (fix_version_file (add_version_info raw)))
      (stem ++ ".versioned.ll") (stem ++ ".o") (stem ++ ".versioned.ll") hvt
    rw [h4] at hx
    simpa [fsWrite] using hx
  cases oe4 with
  | some e => exact hf4
  | none =>
    cases ns with
    | true => exact hf4
    | false =>
      exact (strip_object_file_fs_frame strip fs4 (stem ++ ".o")
        (stem ++ ".versioned.ll") hvt).trans hf4

/-! ## Claim theorem C6 (raw IR file never mutated) -/

/-- C6: the raw IR file is never mutated by the per-module pipeline: whenever
the raw file `stem ++ ".ll"` holds the translator's output, after
`build_ebpf` (with any stage outcomes, success or failure) it still holds
exactly those bytes, and the distinct suffix-tagged versioned copy
`stem ++ ".versioned.ll"` exists alongside it. -/
theorem build_ebpf_preserves_raw_file (llc strip : List Char → Except BuildErr (List Char))
    (fs : String → Option (List Char)) (stem : String) (ns : Bool) (raw : List Char)
    (h : fs (stem ++ ".ll") = some raw) :
    (build_ebpf llc strip fs stem ns).fs (stem ++ ".ll") = some raw
    ∧ ∃ v, (build_ebpf llc strip fs stem ns).fs (stem ++ ".versioned.ll") = some v := by
  constructor
  · rw [build_ebpf_fs_frame llc strip fs stem ns (stem ++ ".ll")
      (append_ne_of_length_ne _ _ _ (by decide)) (append_ne_of_length_ne _ _ _ (by decide))]
    exact h
  · exact ⟨_, build_ebpf_versioned_content llc strip fs stem ns raw h⟩

/-- Witness for C6 at a concrete filesystem holding one raw IR file. -/
theorem build_ebpf_preserves_raw_file_witness :
    (build_ebpf (fun _ => Except.ok ("obj").data) (fun c => Except.ok c)
      (fun q => if q = "m.ll" then some ("ir").data else none) "m" false).fs "m.ll" =
        some ("ir").data
    ∧ ∃ v, (build_ebpf (fun _ => Except.ok ("obj").data) (fun c => Except.ok c)
      (fun q => if q = "m.ll" then some ("ir").data else none) "m" false).fs "m.versioned.ll" =
        some v :=
  build_ebpf_preserves_raw_file (fun _ => Except.ok ("obj").data) (fun c => Except.ok c)
    (fun q => if q = "m.ll" then some ("ir").data else none) "m" false ("ir").data (by decide)

/-! ## Claim theorem C7 (the `--no-strip` toggle) -/

theorem build_ebpf_no_strip_stage (llc strip : List Char → Except BuildErr (List Char))
    (fs : String → Option (List Char)) (stem : String) :
    Stage.strip ∉ (build_ebpf llc strip fs stem true).stages := by
  simp only [build_ebpf]
  split
  · simp
  · split
    · simp
    · split
      · simp
      · split
        · simp
        · simp

theorem build_ebpf_strip_stage_of_ok (llc strip : List Char → Except BuildErr (List Char))
    (fs : String → Option (List Char)) (stem : String) :
    (build_ebpf llc strip fs stem false).err = none →
      Stage.strip ∈ (build_ebpf llc strip fs stem false).stages := by
  simp only [build_ebpf]
  split
  · simp
  · split
    · simp
    · split
      · simp
      · split
        · simp
        · simp

/-- C7: the `--no-strip` flag controls exactly the strip stage and the
RUSTFLAGS hint: when present, `build` filters the flag out of the forwarded
arguments, does not set `RUSTFLAGS="-C link-arg=-s"`, and `build_ebpf` never
invokes the strip stage; when absent, the arguments are forwarded unchanged,
RUSTFLAGS is set, and every successful `build_ebpf` run invokes the strip
stage on the produced object file. -/
theorem no_strip_flag_controls (args : List String)
    (llc strip : List Char → Except BuildErr (List Char))
    (fs : String → Option (List Char)) (stem : String) :
    (args.contains "--no-strip" = true →
      no_strip_flag args = true
      ∧ forwarded_args args = args.filter (fun x => !(x == "--no-strip"))
      ∧ rustflags_set args = false
      ∧ Stage.strip ∉ (build_ebpf llc strip fs stem (no_strip_flag args)).stages)
  ∧ (args.contains "--no-strip" = false →
      no_strip_flag args = false
      ∧ forwarded_args args = args
      ∧ rustflags_set args = true
      ∧ ((build_ebpf llc strip fs stem (no_strip_flag args)).err = none →
          Stage.strip ∈ (build_ebpf llc strip fs stem (no_strip_flag args)).stages)) := by
  constructor
  · intro h
    have hflag : no_strip_flag args = true := h
    refine ⟨hflag, ?_, ?_, ?_⟩
    · simp [forwarded_args, hflag]
    · simp [rustflags_set, hflag]
    · rw [hflag]
      exact build_ebpf_no_strip_stage llc strip fs stem
  · intro h
    have hflag : no_strip_flag args = false := h
    refine ⟨hflag, ?_, ?_, ?_⟩
    · simp [forwarded_args, hflag]
    · simp [rustflags_set, hflag]
    · rw [hflag]
      exact build_ebpf_strip_stage_of_ok llc strip fs stem

/-- Witness for C7: with `--no-strip` among the arguments, the flag is
filtered out of the forwarded arguments, RUSTFLAGS is not set, and the strip
stage is not invoked. -/
theorem no_strip_flag_controls_witness :
    no_strip_flag ["--no-strip", "--verbose"] = true
    ∧ forwarded_args ["--no-strip", "--verbose"] =
        (["--no-strip", "--verbose"] : List String).filter (fun x => !(x == "--no-strip"))
    ∧ rustflags_set ["--no-strip", "--verbose"] = false
    ∧ Stage.strip ∉ (build_ebpf (fun _ => Except.ok ("o").data) (fun c => Except.ok c)
        (fun _ => none) "m" (no_strip_flag ["--no-strip", "--verbose"])).stages :=
  (no_strip_flag_controls ["--no-strip", "--verbose"] (fun _ => Except.ok ("o").data)
    (fun c => Except.ok c) (fun _ => none) "m").1 (by decide)

/-! ## Claim theorem C8 (forbidden flags rejected by prefix) -/

theorem check_arg_against_eq_none (arg : String) :
    ∀ ex : List String, check_arg_against arg ex = none ↔
      ∀ e ∈ ex, starts_with arg e = false := by
  intro ex
  induction ex with
  | nil => simp [check_arg_against]
  | cons x xs ih =>
    by_cases hx : starts_with arg x
    · simp [check_arg_against, hx]
    · simp [check_arg_against, hx, ih]

theorem check_arg_against_eq_some (arg : String) :
    ∀ ex e, check_arg_against arg ex = some e → e ∈ ex ∧ starts_with arg e = true := by
  intro ex
  induction ex with
  | nil =>
    intro e h
    simp [check_arg_against] at h
  | cons x xs ih =>
    intro e h
    by_cases hx : starts_with arg x
    · simp only [check_arg_against, if_pos hx] at h
      injection h with h
      subst h
      exact ⟨List.mem_cons_self _ _, hx⟩
    · simp only [check_arg_against, if_neg hx] at h
      obtain ⟨hm, hs⟩ := ih e h
      exact ⟨List.mem_cons_of_mem _ hm, hs⟩

theorem check_args_error_iff (args ex : List String) :
    (∃ msg, check_args_not_contains args ex = Except.error msg) ↔
      ∃ arg ∈ args, ∃ e ∈ ex, starts_with arg e = true := by
  induction args with
  | nil => simp [check_args_not_contains]
  | cons a rest ih =>
    cases hc : check_arg_against a ex with
    | some e =>
      obtain ⟨hm, hs⟩ := check_arg_against_eq_some a ex e hc
      simp only [check_args_not_contains, hc]
      constructor
      · intro _
        exact ⟨a, List.mem_cons_self _ _, e, hm, hs⟩
      · intro _
        exact ⟨_, rfl⟩
    | none =>
      simp only [check_args_not_contains, hc]
      rw [ih]
      constructor
      · rintro ⟨arg, hm, e, he, hs⟩
        exact ⟨arg, List.mem_cons_of_mem _ hm, e, he, hs⟩
      · rintro ⟨arg, hm, e, he, hs⟩
        rcases List.mem_cons.mp hm with rfl | hm2
        · have hz := (check_arg_against_eq_none arg ex).mp hc e he
          rw [hz] at hs
          cases hs
        · exact ⟨arg, hm2, e, he, hs⟩

/-- C8: `check_args_not_contains` rejects by prefix, not by exact match: it
errors if and only if some argument starts with one of the five forbidden
names; in particular `--target=wasm32` is rejected, and so is the unrelated
`--target-unrelated`, while untouched flags pass. -/
theorem check_args_rejects_by_prefix (args : List String) :
    ((∃ msg, check_args_not_contains args forbidden_args = Except.error msg) ↔
      ∃ arg ∈ args, ∃ e ∈ forbidden_args, starts_with arg e = true)
  ∧ check_args_not_contains ["--target=wasm32"] forbidden_args =
      Except.error "This argument cannot be changed: --target"
  ∧ check_args_not_contains ["--target-unrelated"] forbidden_args =
      Except.error "This argument cannot be changed: --target"
  ∧ check_args_not_contains ["--release", "-v"] forbidden_args = Except.ok () :=
  ⟨check_args_error_iff args forbidden_args, rfl, rfl, rfl⟩

/-! ## Claim theorem C9 (template extraction mapping) -/

theorem renameTemplate_getLast (p : List String) :
    (renameTemplate p).getLast? ≠ some "Cargo.toml.template" := by
  unfold renameTemplate
  split
  · rw [List.getLast?_concat]
    decide
  · next h => exact h

theorem unzip_no_template (dest : List String) :
    ∀ (entries : List ZEntry) (top : Option (List String)) (pc : List String × List Char),
      pc ∈ (unzipAux dest top entries).files →
        pc.1.getLast? ≠ some "Cargo.toml.template" := by
  intro entries
  induction entries with
  | nil =>
    intro top pc h
    simp [unzipAux] at h
  | cons e rest ih =>
    intro top pc h
    by_cases hd : e.is_dir = true
    · cases top with
      | none =>
        rw [show unzipAux dest none (e :: rest) = unzipAux dest (some e.components) rest by
          simp [unzipAux, hd]] at h
        exact ih _ _ h
      | some t =>
        simp only [unzipAux, hd, if_true] at h
        exact ih (some t) pc h
    · simp only [unzipAux, hd] at h
      simp only [Bool.false_eq_true, if_false, List.mem_cons] at h
      rcases h with rfl | hm
      · exact renameTemplate_getLast _
      · exact ih top pc hm

/-- C9: the destination mapping of `Template::unzip`: the first directory
entry's name is recorded as the top-level directory without creating it; with
a recorded top-level name, a directory entry creates exactly the destination
path with the name stripped, and a file entry is written to the stripped
destination path after the `Cargo.toml.template` → `Cargo.toml` renaming;
consequently no written file is named `Cargo.toml.template`. -/
theorem unzip_destination_mapping (dest : List String) :
    (∀ (entries : List ZEntry) (pc : List String × List Char),
      pc ∈ (unzipAux dest none entries).files →
        pc.1.getLast? ≠ some "Cargo.toml.template")
  ∧ (∀ (d : ZEntry) (rest : List ZEntry), d.is_dir = true →
      unzipAux dest none (d :: rest) = unzipAux dest (some d.components) rest)
  ∧ (∀ (e : ZEntry) (rest : List ZEntry) (t : List String), e.is_dir = false →
      (unzipAux dest (some t) (e :: rest)).files =
        (renameTemplate (dest ++ stripTop (some t) e.components), e.content) ::
          (unzipAux dest (some t) rest).files)
  ∧ (∀ (e : ZEntry) (rest : List ZEntry) (t : List String), e.is_dir = true →
      unzipAux dest (some t) (e :: rest) =
        { dirs := (dest ++ stripTop (some t) e.components) ::
            (unzipAux dest (some t) rest).dirs,
          files := (unzipAux dest (some t) rest).files }) := by
  refine ⟨?_, ?_, ?_, ?_⟩
  · intro entries pc h
    exact unzip_no_template dest entries none pc h
  · intro d rest hd
    simp [unzipAux, hd]
  · intro e rest t he
    simp [unzipAux, he]
  · intro e rest t he
    simp [unzipAux, he]

/-- Witness for C9: the first directory entry of a concrete archive is
recorded as the top-level directory and itself produces no effect. -/
theorem unzip_destination_mapping_witness :
    unzipAux [] none
      [⟨["tpl"], true, []⟩, ⟨["tpl", "Cargo.toml.template"], false, ("x").data⟩] =
      unzipAux [] (some ["tpl"])
        [⟨["tpl", "Cargo.toml.template"], false, ("x").data⟩] :=
  (unzip_destination_mapping []).2.1 _ _ rfl

/-! ## Claim theorem C10 (the `--release` flag) -/

/-- C10 (counterexample): the `--release` flag is not present exactly once on
every cargo invocation: a caller passing `--release` twice gets a cargo
command containing it twice, refuting the claim as stated. -/
theorem cargo_release_flag_counterexample :
    (cargo_invocation ["--release", "--release"]).count "--release" = 2
    ∧ ¬ ((cargo_invocation ["--release", "--release"]).count "--release" = 1) := by
  constructor <;> decide

/-- C10 (amended): `build` always requests the release profile: `--release`
is appended unless the forwarded arguments already contain it, so it occurs
in every cargo invocation (both the build and the json message invocation),
and exactly once whenever the caller-supplied arguments contain it at most
once. -/
theorem cargo_release_flag_amended (args : List String)
    (h : args.count "--release" ≤ 1) :
    "--release" ∈ cargo_invocation args
    ∧ (cargo_invocation args).count "--release" = 1
    ∧ (cargo_invocation_json args).count "--release" = 1 := by
  have hforward : (forwarded_args args).count "--release" = args.count "--release" := by
    unfold forwarded_args
    split
    · rw [List.count_filter (by decide)]
    · rfl
  have hbase : (["build", "--target", "wasm32-unknown-unknown"] : List String).count
      "--release" = 0 := by decide
  have hjson0 : (["--message-format", "json"] : List String).count "--release" = 0 := by
    decide
  have hsingle : (["--release"] : List String).count "--release" = 1 := by decide
  have hcount1 : (cargo_invocation args).count "--release" = 1 := by
    by_cases hm : "--release" ∈ forwarded_args args
    · have hc : (forwarded_args args).contains "--release" = true := by simp [hm]
      have hpos : 0 < (forwarded_args args).count "--release" := List.count_pos_iff.mpr hm
      have hcf : (forwarded_args args).count "--release" = 1 := by omega
      simp [cargo_invocation, hc, hm, List.count_append, hbase, hcf]
    · have hc : (forwarded_args args).contains "--release" = false := by simp [hm]
      have hzero : (forwarded_args args).count "--release" = 0 := List.count_eq_zero.mpr hm
      simp [cargo_invocation, hc, hm, List.count_append, hbase, hzero, hsingle]
  have hmem : "--release" ∈ cargo_invocation args := List.count_pos_iff.mp (by omega)
  refine ⟨hmem, hcount1, ?_⟩
  rw [cargo_invocation_json, List.count_append, hcount1, hjson0]

/-- Witness for the amended C10 at a concrete argument list without
`--release`. -/
theorem cargo_release_flag_amended_witness :
    "--release" ∈ cargo_invocation ["--verbose"]
    ∧ (cargo_invocation ["--verbose"]).count "--release" = 1
    ∧ (cargo_invocation_json ["--verbose"]).count "--release" = 1 :=
  cargo_release_flag_amended ["--verbose"] (by decide)

end CargoL1x
